import Mathlib

/-!
Shallow embedding of the rolling knock-in/recovery backtester
(`run_detailed_backtest` in `src/app.py`) and proofs about it.

Modelling choices:
* A price row `(Date, Close)` becomes `Row` with the date as an `Int`
  (calendar-day ordinal, so subtraction of dates is the calendar-day
  difference computed by `(recover_date - end_date).days`) and the
  closing price as a `Rat` (the Python floats, made exact).
* The dataframe `bt` after the `dropna` on line 83 keeps exactly the rows
  whose shifted columns `End_Date`/`Final_Price` exist, i.e. indices
  `0 .. n - trading_days - 1`; `Min_Price_During` is computed with
  `pd.api.indexers.FixedForwardWindowIndexer(window_size=trading_days)`,
  whose forward window at row `i` covers rows `i .. i + trading_days - 1`
  (half-open `[i, i + trading_days)`), with `min_periods=1`.  When
  `trading_days = 0` every forward window is empty, every
  `Min_Price_During` is NaN and `dropna` leaves nothing, so the embedding
  returns the empty row list in that case.
* `np.select` with its ordered condition list becomes `resultOf`; the
  fallthrough default `'未知'` is the `unknown` constructor.
* The per-loss-window recovery lookup
  `df[(df['Date'] > end_date) & (df['Close'] >= target_price)]` followed by
  `.iloc[0]` becomes `recoveryFor`: filter the whole series and take the
  head.  The function returns `none` for the "尚未回本" (STUCK) case.
* The Python function returns `None, None` when `bt` is empty; the
  embedding returns `none : Option (List BtRow × Stats)`.
-/

/- `Rat.mul`, `Rat.add`, `Rat.sub` and `Rat.inv` are `@[irreducible]` in
core, which blocks `decide` from evaluating concrete rational arithmetic
during elaboration; the kernel itself unfolds them regardless.  Restoring
the default reducibility locally lets the concrete witnesses evaluate. -/
attribute [local semireducible] Rat.mul Rat.add Rat.sub Rat.inv

namespace Backtest

/-- One row of the input dataframe: a trading date (calendar-day ordinal)
and its closing price. -/
structure Row where
  date : Int
  close : Rat
deriving DecidableEq, Repr

/-- The three labels produced by `np.select` on lines 96-102 of
`src/app.py`, plus the unreachable default `'未知'`.
`loss` is `'接股票 (損)'`, `touchedSafe` is `'觸及KI但漲回 (安)'`,
`noTouchSafe` is `'未觸及KI (安)'`. -/
inductive ResultClass where
  | loss
  | touchedSafe
  | noTouchSafe
  | unknown
deriving DecidableEq, Repr

/-- One row of the backtest dataframe `bt` after all derived columns are
added (lines 71-102 of `src/app.py`). -/
structure BtRow where
  start_date : Int
  start_price : Rat
  end_date : Int
  final_price : Rat
  min_price_during : Rat
  ki_level : Rat
  strike_level : Rat
  touched_ki : Bool
  below_strike : Bool
  result : ResultClass
deriving DecidableEq, Repr

/-- The `stats` dict returned on lines 151-158 of `src/app.py`. -/
structure Stats where
  safety_prob : Rat
  positive_prob : Rat
  total_samples : Nat
  loss_count : Nat
  avg_recovery_days : Rat
  stuck_count : Nat
deriving DecidableEq, Repr

/-- Placeholder row for out-of-range `getD` accesses; never read on the
index ranges the theorems use. -/
def dummyRow : Row := ⟨0, 0⟩

/-- Minimum of a nonempty list of rationals; the `[]` value stands in for
NaN and is never used on the index ranges the theorems cover. -/
def listMin : List Rat → Rat
  | [] => 0
  | c :: cs => cs.foldl min c

/-- `Min_Price_During` at anchor `i`: the rolling forward minimum of
`Start_Price` with `FixedForwardWindowIndexer(window_size=td)`, i.e. the
minimum closing price over rows `i .. i + td - 1` (the slice
`(df.drop i).take td`).  The empty-window case is the NaN case; those
rows are removed by `dropna`, see `computeBt`. -/
def minPriceDuring (df : List Row) (td i : Nat) : Rat :=
  listMin (((df.drop i).take td).map Row.close)

/-- `np.select(conditions, choices, default='未知')` from lines 96-102:
conditions are tested in order. -/
def resultOf (touched below : Bool) : ResultClass :=
  if touched = true ∧ below = true then .loss
  else if touched = true ∧ below = false then .touchedSafe
  else if touched = false then .noTouchSafe
  else .unknown

/-- The backtest row anchored at index `i`: entry at `df[i]`, exit at
`df[i + td]` (the `shift(-trading_days)` columns), levels, flags and
result exactly as computed on lines 75-102 of `src/app.py`. -/
def mkBtRow (df : List Row) (ki_pct strike_pct : Rat) (td i : Nat) : BtRow :=
  let entry := df.getD i dummyRow
  let exitRow := df.getD (i + td) dummyRow
  let minp := minPriceDuring df td i
  let kiLevel := entry.close * (ki_pct / 100)
  let strikeLevel := entry.close * (strike_pct / 100)
  let touched := decide (minp < kiLevel)
  let below := decide (exitRow.close < strikeLevel)
  { start_date := entry.date
    start_price := entry.close
    end_date := exitRow.date
    final_price := exitRow.close
    min_price_during := minp
    ki_level := kiLevel
    strike_level := strikeLevel
    touched_ki := touched
    below_strike := below
    result := resultOf touched below }

/-- The dataframe `bt` after `bt = bt.dropna()` (line 83): rows
`0 .. n - td - 1` survive (their shifted exit columns exist and their
forward min window is nonempty); for `td = 0` every `Min_Price_During`
is NaN (empty forward window under `min_periods=1`) and nothing
survives. -/
def computeBt (df : List Row) (ki_pct strike_pct : Rat) (td : Nat) : List BtRow :=
  if td = 0 then []
  else (List.range (df.length - td)).map (mkBtRow df ki_pct strike_pct td)

/-- `bt[bt['Result'] == '接股票 (損)']` — the loss rows (line 113). -/
def lossRows (bt : List BtRow) : List BtRow :=
  bt.filter (fun r => r.result = ResultClass.loss)

/-- The recovery lookup for one loss window (lines 125-129):
`future_data = df[(df['Date'] > end_date) & (df['Close'] >= target_price)]`,
then `days_needed = (future_data.iloc[0]['Date'] - end_date).days` if the
filtered frame is nonempty, else the STUCK (`尚未回本`) case, `none`. -/
def recoveryFor (df : List Row) (w : BtRow) : Option Int :=
  match df.filter (fun r => decide (w.end_date < r.date) && decide (w.strike_level ≤ r.close)) with
  | [] => none
  | r :: _ => some (r.date - w.end_date)

/-- `recovery_counts` (lines 115, 132): the recovery day counts of the
loss windows that did recover, in row order. -/
def recoveryCounts (df : List Row) (bt : List BtRow) : List Int :=
  (lossRows bt).filterMap (recoveryFor df)

/-- `stuck_count` (lines 116, 136): loss windows whose recovery scan
found nothing. -/
def stuckCount (df : List Row) (bt : List BtRow) : Nat :=
  ((lossRows bt).filter (fun w => recoveryFor df w = none)).length

/-- The `stats` dict (lines 138-158).  `avg_recovery_days` is
`np.mean(recovery_counts) if recovery_counts else 0`: the arithmetic mean
of the recovered counts, or the literal `0` when the list is empty. -/
def mkStats (df : List Row) (bt : List BtRow) : Stats :=
  let total := bt.length
  let safe := (bt.filter (fun r => !decide (r.result = ResultClass.loss))).length
  let pos := (bt.filter (fun r => r.start_price < r.final_price)).length
  let rc := recoveryCounts df bt
  { safety_prob := ((safe : Rat) / (total : Rat)) * 100
    positive_prob := ((pos : Rat) / (total : Rat)) * 100
    total_samples := total
    loss_count := (lossRows bt).length
    avg_recovery_days := if rc.isEmpty then 0 else (rc.map (fun d => (d : Rat))).sum / (rc.length : Rat)
    stuck_count := stuckCount df bt }

/-- `run_detailed_backtest` with the holding period already converted to
trading days (`trading_days = int(months * 21)`, line 68).  Returns
`none` exactly when the Python code returns `None, None` (line 85). -/
def run_detailed_backtest_days (df : List Row) (ki_pct strike_pct : Rat) (td : Nat) :
    Option (List BtRow × Stats) :=
  let bt := computeBt df ki_pct strike_pct td
  if bt.isEmpty then none else some (bt, mkStats df bt)

/-- `run_detailed_backtest(df, ki_pct, strike_pct, months)` from
`src/app.py` line 64. -/
def run_detailed_backtest (df : List Row) (ki_pct strike_pct : Rat) (months : Nat) :
    Option (List BtRow × Stats) :=
  run_detailed_backtest_days df ki_pct strike_pct (months * 21)

/-- All-zero statistics record, used only as a `getD` default when
projecting out of an `Option` result on concrete inputs. -/
def emptyStats : Stats := ⟨0, 0, 0, 0, 0, 0⟩

/-- Projection of the stats component of a backtest result. -/
def statsOf (o : Option (List BtRow × Stats)) : Stats :=
  (o.getD ([], emptyStats)).2

/-- The spec sentence of C1, stated in the spec's own words: the minimum
closing price over indices `[i, i + td]`, both endpoints included (so the
exit day's close at index `i + td` participates).  Kept separate from
`minPriceDuring`, which embeds what the code computes, so the two can be
compared. -/
def inclusiveWindowMin (df : List Row) (td i : Nat) : Rat :=
  listMin (((df.drop i).take (td + 1)).map Row.close)

/-- The boolean mask `(df['Date'] > end_date) & (df['Close'] >= target_price)`
of line 125 is a vectorized comparison: pandas evaluates it on every row
of `df` before selecting, for each loss window anew.  This is the list of
per-row mask values computed for one loss window — its length is the
number of rows inspected. -/
def recoveryMask (df : List Row) (w : BtRow) : List Bool :=
  df.map (fun r => decide (w.end_date < r.date) && decide (w.strike_level ≤ r.close))

/-- Total number of rows inspected by the recovery lookup across the
whole `for idx in loss_indices` loop (lines 118-136): one full mask over
`df` per loss window. -/
def recoveryScanEvals (df : List Row) (bt : List BtRow) : Nat :=
  ((lossRows bt).map (fun w => (recoveryMask df w).length)).sum

/-- A constant-price series: `n` consecutive days of close 1, used to
exhibit the quadratic cost of the recovery lookup. -/
def constSeries (n : Nat) : List Row :=
  (List.range n).map (fun i => { date := Int.ofNat i, close := 1 })

/- ### Concrete example series shared by the witnesses and counterexamples -/

/-- Three trading days, prices 100, 100, 50: the exit day of the single
2-day window carries the lowest close. -/
def exA : List Row := [⟨0, 100⟩, ⟨1, 100⟩, ⟨2, 50⟩]

/-- Three trading days, prices 100, 10, 10: the single 2-day window is a
LOSS and never recovers within the series. -/
def exStuck : List Row := [⟨0, 100⟩, ⟨1, 10⟩, ⟨2, 10⟩]

/-- A series containing a non-positive closing price. -/
def exBad : List Row := [⟨0, 100⟩, ⟨1, -5⟩, ⟨2, 100⟩]

/-- A series whose dates are not monotonically increasing. -/
def exBadDates : List Row := [⟨5, 100⟩, ⟨1, 50⟩, ⟨2, 100⟩]

/-- Four trading days; the window anchored at index 0 is a LOSS exiting
on date 4, and the close first returns to its strike level on date 7,
three calendar days later. -/
def exRec : List Row := [⟨0, 100⟩, ⟨2, 10⟩, ⟨4, 10⟩, ⟨7, 100⟩]

/- ### Helper lemmas on list minima and indexing -/

theorem foldl_min_le_init (xs : List Rat) (x : Rat) : xs.foldl min x ≤ x := by
  induction xs generalizing x with
  | nil => exact le_refl x
  | cons y ys ih =>
    simp only [List.foldl_cons]
    exact le_trans (ih (min x y)) (min_le_left x y)

theorem foldl_min_le_mem {a : Rat} {xs : List Rat} (x : Rat) (h : a ∈ xs) :
    xs.foldl min x ≤ a := by
  induction xs generalizing x with
  | nil => cases h
  | cons y ys ih =>
    simp only [List.foldl_cons]
    rcases List.mem_cons.mp h with rfl | h2
    · exact le_trans (foldl_min_le_init ys (min x a)) (min_le_right x a)
    · exact ih (min x y) h2

theorem foldl_min_mem (xs : List Rat) (x : Rat) :
    xs.foldl min x = x ∨ xs.foldl min x ∈ xs := by
  induction xs generalizing x with
  | nil => exact Or.inl rfl
  | cons y ys ih =>
    simp only [List.foldl_cons]
    rcases ih (min x y) with h | h
    · rcases min_choice x y with hc | hc
      · exact Or.inl (h.trans hc)
      · exact Or.inr (by rw [h, hc]; exact List.mem_cons_self y ys)
    · exact Or.inr (List.mem_cons_of_mem y h)

theorem listMin_le {a : Rat} {l : List Rat} (h : a ∈ l) : listMin l ≤ a := by
  cases l with
  | nil => cases h
  | cons c cs =>
    rcases List.mem_cons.mp h with rfl | h2
    · exact foldl_min_le_init cs a
    · exact foldl_min_le_mem c h2

theorem listMin_mem {l : List Rat} (h : l ≠ []) : listMin l ∈ l := by
  cases l with
  | nil => exact absurd rfl h
  | cons c cs =>
    show cs.foldl min c ∈ c :: cs
    rcases foldl_min_mem cs c with h2 | h2
    · rw [h2]; exact List.mem_cons_self c cs
    · exact List.mem_cons_of_mem c h2

theorem slice_getElem? (df : List Row) (td i k : Nat) (hk : k < td) :
    ((df.drop i).take td)[k]? = df[i + k]? := by
  rw [List.getElem?_take, if_pos hk, List.getElem?_drop]

theorem computeBt_length (df : List Row) (ki strike : Rat) (td : Nat) (h : 1 ≤ td) :
    (computeBt df ki strike td).length = df.length - td := by
  unfold computeBt
  rw [if_neg (by omega), List.length_map, List.length_range]

theorem computeBt_getElem? (df : List Row) (ki strike : Rat) (td i : Nat)
    (h1 : 1 ≤ td) (h2 : i < df.length - td) :
    (computeBt df ki strike td)[i]? = some (mkBtRow df ki strike td i) := by
  unfold computeBt
  rw [if_neg (by omega), List.getElem?_map, List.getElem?_range h2]
  rfl

theorem mem_computeBt {df : List Row} {ki strike : Rat} {td : Nat} {w : BtRow}
    (hw : w ∈ computeBt df ki strike td) :
    ∃ i, i < df.length - td ∧ w = mkBtRow df ki strike td i := by
  unfold computeBt at hw
  split at hw
  · cases hw
  · rcases List.mem_map.mp hw with ⟨i, hi, rfl⟩
    exact ⟨i, List.mem_range.mp hi, rfl⟩

theorem recoveryFor_eq (df : List Row) (w : BtRow) :
    recoveryFor df w =
      match df.filter (fun r => decide (w.end_date < r.date) && decide (w.strike_level ≤ r.close)) with
      | [] => none
      | r :: _ => some (r.date - w.end_date) := rfl

theorem mkStats_safety_prob (df : List Row) (bt : List BtRow) :
    (mkStats df bt).safety_prob =
      (((bt.filter (fun r => !decide (r.result = ResultClass.loss))).length : Rat) / (bt.length : Rat)) * 100 := rfl

theorem mkStats_positive_prob (df : List Row) (bt : List BtRow) :
    (mkStats df bt).positive_prob =
      (((bt.filter (fun r => r.start_price < r.final_price)).length : Rat) / (bt.length : Rat)) * 100 := rfl

theorem mkStats_total_samples (df : List Row) (bt : List BtRow) :
    (mkStats df bt).total_samples = bt.length := rfl

theorem mkStats_loss_count (df : List Row) (bt : List BtRow) :
    (mkStats df bt).loss_count = (lossRows bt).length := rfl

theorem mkStats_stuck_count (df : List Row) (bt : List BtRow) :
    (mkStats df bt).stuck_count = stuckCount df bt := rfl

theorem mkStats_avg_recovery (df : List Row) (bt : List BtRow) :
    (mkStats df bt).avg_recovery_days =
      if (recoveryCounts df bt).isEmpty then 0
      else ((recoveryCounts df bt).map (fun d => (d : Rat))).sum /
        ((recoveryCounts df bt).length : Rat) := rfl

theorem run_days_eq_some {df : List Row} {ki strike : Rat} {td : Nat}
    {bt : List BtRow} {s : Stats}
    (h : run_detailed_backtest_days df ki strike td = some (bt, s)) :
    bt = computeBt df ki strike td ∧ s = mkStats df bt ∧ bt ≠ [] := by
  simp only [run_detailed_backtest_days] at h
  split at h
  · cases h
  · rename_i hemp
    have h2 := Option.some.inj h
    have hbt : bt = computeBt df ki strike td := (congrArg Prod.fst h2).symm
    refine ⟨hbt, ?_, ?_⟩
    · rw [hbt]
      exact (congrArg Prod.snd h2).symm
    · rw [hbt]
      intro hc
      exact hemp (List.isEmpty_iff.mpr hc)

theorem run_detailed_backtest_eq_days (df : List Row) (ki strike : Rat) (months : Nat) :
    run_detailed_backtest df ki strike months =
      run_detailed_backtest_days df ki strike (months * 21) := rfl

theorem resultOf_loss_iff (t b : Bool) :
    resultOf t b = ResultClass.loss ↔ (t = true ∧ b = true) := by
  cases t <;> cases b <;> decide

theorem resultOf_cases (t b : Bool) :
    resultOf t b = ResultClass.loss ∨ resultOf t b = ResultClass.touchedSafe ∨
      resultOf t b = ResultClass.noTouchSafe := by
  cases t <;> cases b <;> decide

/- ### Claim theorems -/

/-- C3: a series shorter than `holding_days + 1` rows (the empty series
included) yields the empty backtest — the ordinary no-data result `none`
(Python's `return None, None`), produced by a total function with no
raise path, not an error. -/
theorem C3_short_series_gives_empty_result (df : List Row) (ki strike : Rat) (td : Nat)
    (h : df.length < td + 1) :
    run_detailed_backtest_days df ki strike td = none := by
  have hbt : computeBt df ki strike td = [] := by
    unfold computeBt
    split
    · rfl
    · have h0 : df.length - td = 0 := by omega
      rw [h0]
      rfl
  unfold run_detailed_backtest_days
  rw [hbt]
  rfl

/-- Witness for C3 at the empty series with a 21-trading-day holding
period. -/
theorem C3_short_series_gives_empty_result_witness :
    ([] : List Row).length < 21 + 1 ∧ run_detailed_backtest_days [] 65 100 21 = none :=
  ⟨by decide, C3_short_series_gives_empty_result [] 65 100 21 (by decide)⟩

/-- C6: with a positive holding period, the backtest emits exactly
`max 0 (len(series) − holding_days)` windows, the window at position `i`
being anchored at `series[i]` with entry data from `series[i]` and exit
data from `series[i + holding_days]`; anchors without a full lookahead
produce no window at all. -/
theorem C6_window_count_and_anchor_layout (df : List Row) (ki strike : Rat) (td : Nat)
    (h : 1 ≤ td) :
    (((computeBt df ki strike td).length : Int) = max 0 ((df.length : Int) - (td : Int))) ∧
    ∀ i, i < df.length - td →
      (computeBt df ki strike td)[i]? = some (mkBtRow df ki strike td i) ∧
      (mkBtRow df ki strike td i).start_date = (df.getD i dummyRow).date ∧
      (mkBtRow df ki strike td i).start_price = (df.getD i dummyRow).close ∧
      (mkBtRow df ki strike td i).end_date = (df.getD (i + td) dummyRow).date ∧
      (mkBtRow df ki strike td i).final_price = (df.getD (i + td) dummyRow).close := by
  constructor
  · rw [computeBt_length df ki strike td h]
    omega
  · intro i hi
    exact ⟨computeBt_getElem? df ki strike td i h hi, rfl, rfl, rfl, rfl⟩

/-- Witness for C6 on a 3-row series with a 2-day holding period: one
window, anchored at row 0, exiting at row 2. -/
theorem C6_window_count_and_anchor_layout_witness :
    (((computeBt exA 65 100 2).length : Int) = max 0 ((exA.length : Int) - (2 : Int))) ∧
    ∀ i, i < exA.length - 2 →
      (computeBt exA 65 100 2)[i]? = some (mkBtRow exA 65 100 2 i) ∧
      (mkBtRow exA 65 100 2 i).start_date = (exA.getD i dummyRow).date ∧
      (mkBtRow exA 65 100 2 i).start_price = (exA.getD i dummyRow).close ∧
      (mkBtRow exA 65 100 2 i).end_date = (exA.getD (i + 2) dummyRow).date ∧
      (mkBtRow exA 65 100 2 i).final_price = (exA.getD (i + 2) dummyRow).close :=
  C6_window_count_and_anchor_layout exA 65 100 2 (by decide)

/-- C4: for every emitted window, `touched_ki` holds exactly when the
window minimum is strictly below `entry_price × ki_pct/100`, the result
is the LOSS label exactly when `touched_ki` holds and the exit price is
strictly below `entry_price × strike_pct/100`, and every non-LOSS window
carries one of the two SAFE labels (`'觸及KI但漲回 (安)'` or
`'未觸及KI (安)'`) — the `np.select` default `'未知'` is unreachable. -/
theorem C4_touched_ki_and_loss_classification (df : List Row) (ki strike : Rat) (td : Nat)
    (w : BtRow) (hw : w ∈ computeBt df ki strike td) :
    (w.touched_ki = true ↔ w.min_price_during < w.start_price * (ki / 100)) ∧
    (w.result = ResultClass.loss ↔
      (w.touched_ki = true ∧ w.final_price < w.start_price * (strike / 100))) ∧
    (w.result ≠ ResultClass.loss →
      w.result = ResultClass.touchedSafe ∨ w.result = ResultClass.noTouchSafe) := by
  rcases mem_computeBt hw with ⟨i, hi, rfl⟩
  simp only [mkBtRow]
  refine ⟨by simp, ?_, ?_⟩
  · rw [resultOf_loss_iff]
    simp
  · intro hne
    rcases resultOf_cases (decide (minPriceDuring df td i <
        (df.getD i dummyRow).close * (ki / 100)))
        (decide ((df.getD (i + td) dummyRow).close <
          (df.getD i dummyRow).close * (strike / 100))) with hc | hc | hc
    · exact absurd hc hne
    · exact Or.inl hc
    · exact Or.inr hc

/-- Witness for C4 at the LOSS window of the `exStuck` series. -/
theorem C4_touched_ki_and_loss_classification_witness :
    ((mkBtRow exStuck 65 100 2 0).touched_ki = true ↔
      (mkBtRow exStuck 65 100 2 0).min_price_during <
        (mkBtRow exStuck 65 100 2 0).start_price * (65 / 100)) ∧
    ((mkBtRow exStuck 65 100 2 0).result = ResultClass.loss ↔
      ((mkBtRow exStuck 65 100 2 0).touched_ki = true ∧
        (mkBtRow exStuck 65 100 2 0).final_price <
          (mkBtRow exStuck 65 100 2 0).start_price * (100 / 100))) ∧
    ((mkBtRow exStuck 65 100 2 0).result ≠ ResultClass.loss →
      (mkBtRow exStuck 65 100 2 0).result = ResultClass.touchedSafe ∨
        (mkBtRow exStuck 65 100 2 0).result = ResultClass.noTouchSafe) :=
  C4_touched_ki_and_loss_classification exStuck 65 100 2 (mkBtRow exStuck 65 100 2 0)
    (by rw [show computeBt exStuck 65 100 2 = [mkBtRow exStuck 65 100 2 0] from rfl]
        exact List.mem_singleton_self _)

/-- C1 is false of the code: on the series with closes 100, 100, 50 and a
2-day holding period, the single window's `Min_Price_During` is 100
(minimum over rows 0..1 only), while the minimum over the inclusive index
range `[0, 2]` — which contains the exit day's close 50 — is 50.  The
forward-looking minimum therefore does not include the exit day. -/
theorem C1_counterexample_exit_day_not_included :
    (computeBt exA 65 100 2).map BtRow.min_price_during = [100] ∧
    inclusiveWindowMin exA 2 0 = 50 ∧
    (exA.getD 2 dummyRow).close = 50 := by decide

/-- C1 (amended): for every emitted window anchored at index `i`, the
window minimum price is the minimum closing price over the index range
`[i, i + holding_days − 1]` — inclusive of the entry day but exclusive of
the exit day at `i + holding_days` (pandas
`FixedForwardWindowIndexer(window_size=holding_days)` covers the
half-open row range `[i, i + holding_days)`): it is a lower bound of
every close in that range and is attained at one of them. -/
theorem C1_amended_window_min_over_half_open_range (df : List Row) (ki strike : Rat)
    (td i : Nat) (w : BtRow) (h1 : 1 ≤ td)
    (hw : (computeBt df ki strike td)[i]? = some w) :
    (∀ j, i ≤ j → j < i + td → w.min_price_during ≤ (df.getD j dummyRow).close) ∧
    (∃ j, i ≤ j ∧ j < i + td ∧ w.min_price_during = (df.getD j dummyRow).close) := by
  have hi : i < df.length - td := by
    rcases List.getElem?_eq_some.mp hw with ⟨hlen, _⟩
    rwa [computeBt_length df ki strike td h1] at hlen
  have hw2 : w = mkBtRow df ki strike td i := by
    have := computeBt_getElem? df ki strike td i h1 hi
    rw [hw] at this
    exact Option.some.inj this
  subst hw2
  have hmin : (mkBtRow df ki strike td i).min_price_during = minPriceDuring df td i := rfl
  constructor
  · intro j hij hjtd
    have hk : j - i < td := by omega
    have hjlen : j < df.length := by omega
    have hslice : ((df.drop i).take td)[j - i]? = df[j]? := by
      rw [slice_getElem? df td i (j - i) hk]
      congr 1
      omega
    rw [List.getElem?_eq_getElem hjlen] at hslice
    rcases List.getElem?_eq_some.mp hslice with ⟨hsl, hval⟩
    have hmem : df[j] ∈ (df.drop i).take td := hval ▸ List.getElem_mem hsl
    have hclose : Row.close df[j] ∈ ((df.drop i).take td).map Row.close :=
      List.mem_map_of_mem Row.close hmem
    have hle := listMin_le hclose
    rw [hmin, minPriceDuring]
    rw [List.getD_eq_getElem?_getD, List.getElem?_eq_getElem hjlen]
    exact hle
  · have hne : ((df.drop i).take td).map Row.close ≠ [] := by
      have hlen : ((df.drop i).take td).length = td := by
        rw [List.length_take, List.length_drop]
        omega
      intro hcon
      have := congrArg List.length hcon
      rw [List.length_map, hlen, List.length_nil] at this
      omega
    have hmem := listMin_mem hne
    rcases List.mem_map.mp hmem with ⟨r, hr, hrc⟩
    rcases List.mem_iff_getElem.mp hr with ⟨k, hks, hkv⟩
    have hktd : k < td := by
      have := List.length_take td (df.drop i)
      omega
    have hgetk : ((df.drop i).take td)[k]? = df[i + k]? := slice_getElem? df td i k hktd
    rw [List.getElem?_eq_getElem hks, hkv] at hgetk
    rcases List.getElem?_eq_some.mp hgetk.symm with ⟨hik, hikv⟩
    refine ⟨i + k, by omega, by omega, ?_⟩
    rw [hmin, minPriceDuring, List.getD_eq_getElem?_getD, List.getElem?_eq_getElem hik, hikv]
    rw [← hrc]
    rfl

/-- Witness for the amended C1 at the `exA` series: the window anchored
at index 0 with a 2-day holding period. -/
theorem C1_amended_window_min_over_half_open_range_witness :
    (∀ j, 0 ≤ j → j < 0 + 2 →
      (mkBtRow exA 65 100 2 0).min_price_during ≤ (exA.getD j dummyRow).close) ∧
    (∃ j, 0 ≤ j ∧ j < 0 + 2 ∧
      (mkBtRow exA 65 100 2 0).min_price_during = (exA.getD j dummyRow).close) :=
  C1_amended_window_min_over_half_open_range exA 65 100 2 0 (mkBtRow exA 65 100 2 0)
    (by decide) rfl

/-- C5: on a series with strictly increasing dates, the recovery scan for
a window returns STUCK (`none`) exactly when no series date strictly
after the exit date has a close at or above the strike level, and when it
returns a value `d`, there is a recovery row strictly after the exit date
with close ≥ strike whose date is the earliest such in the series and
`d` is the calendar-day difference (recovery date − exit date). -/
theorem C5_recovery_scan_earliest_and_stuck (df : List Row) (w : BtRow)
    (hsorted : df.Pairwise (fun a b => a.date < b.date)) :
    ((recoveryFor df w = none) ↔
      ∀ r ∈ df, w.end_date < r.date → r.close < w.strike_level) ∧
    (∀ d : Int, recoveryFor df w = some d →
      ∃ r ∈ df, w.end_date < r.date ∧ w.strike_level ≤ r.close ∧
        d = r.date - w.end_date ∧
        ∀ r2 ∈ df, w.end_date < r2.date → w.strike_level ≤ r2.close →
          r.date ≤ r2.date) := by
  rcases hf : df.filter (fun r => decide (w.end_date < r.date) && decide (w.strike_level ≤ r.close))
    with _ | ⟨r0, rest⟩
  · have hnone : recoveryFor df w = none := by rw [recoveryFor_eq, hf]
    constructor
    · rw [hnone]
      constructor
      · intro _ r hr hdate
        have hall := List.filter_eq_nil_iff.mp hf r hr
        simp only [Bool.and_eq_true, decide_eq_true_eq, not_and] at hall
        exact lt_of_not_le (hall hdate)
      · intro _
        rfl
    · intro d hd
      rw [hnone] at hd
      cases hd
  · have hsome : recoveryFor df w = some (r0.date - w.end_date) := by
      rw [recoveryFor_eq, hf]
    have hr0 : r0 ∈ df.filter
        (fun r => decide (w.end_date < r.date) && decide (w.strike_level ≤ r.close)) := by
      rw [hf]
      exact List.mem_cons_self r0 rest
    obtain ⟨hr0df, hp0⟩ := List.mem_filter.mp hr0
    simp only [Bool.and_eq_true, decide_eq_true_eq] at hp0
    constructor
    · rw [hsome]
      constructor
      · intro hcon
        cases hcon
      · intro hall
        exact absurd hp0.2 (not_le.mpr (hall r0 hr0df hp0.1))
    · intro d hd
      rw [hsome] at hd
      have hdval := Option.some.inj hd
      refine ⟨r0, hr0df, hp0.1, hp0.2, hdval.symm, ?_⟩
      intro r2 hr2 hd2 hc2
      have hmem2 : r2 ∈ df.filter
          (fun r => decide (w.end_date < r.date) && decide (w.strike_level ≤ r.close)) :=
        List.mem_filter.mpr ⟨hr2, by simp [hd2, hc2]⟩
      rw [hf] at hmem2
      rcases List.mem_cons.mp hmem2 with rfl | htail
      · exact le_refl _
      · have hpair : (df.filter
            (fun r => decide (w.end_date < r.date) && decide (w.strike_level ≤ r.close))).Pairwise
              (fun a b => a.date < b.date) :=
          List.Pairwise.sublist (List.filter_sublist df) hsorted
        rw [hf] at hpair
        exact le_of_lt ((List.pairwise_cons.mp hpair).1 r2 htail)

/-- Witness for C5 at the `exRec` series and its LOSS window (exit date
4, strike level 100): the scan recovers on date 7, three calendar days
after exit. -/
theorem C5_recovery_scan_earliest_and_stuck_witness :
    ((recoveryFor exRec (mkBtRow exRec 65 100 2 0) = none) ↔
      ∀ r ∈ exRec, (mkBtRow exRec 65 100 2 0).end_date < r.date →
        r.close < (mkBtRow exRec 65 100 2 0).strike_level) ∧
    (∀ d : Int, recoveryFor exRec (mkBtRow exRec 65 100 2 0) = some d →
      ∃ r ∈ exRec, (mkBtRow exRec 65 100 2 0).end_date < r.date ∧
        (mkBtRow exRec 65 100 2 0).strike_level ≤ r.close ∧
        d = r.date - (mkBtRow exRec 65 100 2 0).end_date ∧
        ∀ r2 ∈ exRec, (mkBtRow exRec 65 100 2 0).end_date < r2.date →
          (mkBtRow exRec 65 100 2 0).strike_level ≤ r2.close →
          r.date ≤ r2.date) :=
  C5_recovery_scan_earliest_and_stuck exRec (mkBtRow exRec 65 100 2 0) (by decide)

/-- C2 is false of the code: on the `exStuck` series the backtest has one
LOSS window and it is STUCK (never recovers), yet
`avg_recovery = np.mean(recovery_counts) if recovery_counts else 0`
reports the numeric value 0 for `avg_recovery_days` instead of an
undefined/no-data marker. -/
theorem C2_counterexample_avg_is_numeric_zero :
    (run_detailed_backtest_days exStuck 65 100 2).isSome = true ∧
    (statsOf (run_detailed_backtest_days exStuck 65 100 2)).loss_count = 1 ∧
    (statsOf (run_detailed_backtest_days exStuck 65 100 2)).stuck_count = 1 ∧
    (statsOf (run_detailed_backtest_days exStuck 65 100 2)).avg_recovery_days = 0 := by
  decide

/-- C2 (amended): `avg_recovery_days` is computed only over LOSS windows
that recovered, but when no LOSS window recovered (every LOSS window is
STUCK — no series row after its exit date reaches its strike level — or
there are no LOSS windows at all) the code returns the numeric value 0
for the average, not an undefined/no-data marker; the STUCK windows are
counted in `stuck_count`, which then equals `loss_count`. -/
theorem C2_amended_all_stuck_average_is_zero (df : List Row) (ki strike : Rat) (td : Nat)
    (bt : List BtRow) (s : Stats)
    (h : run_detailed_backtest_days df ki strike td = some (bt, s))
    (hstuck : ∀ w ∈ bt, w.result = ResultClass.loss →
      ∀ r ∈ df, w.end_date < r.date → r.close < w.strike_level) :
    s.avg_recovery_days = 0 ∧ s.stuck_count = s.loss_count := by
  obtain ⟨hbt, hs, -⟩ := run_days_eq_some h
  have hnone : ∀ w ∈ lossRows bt, recoveryFor df w = none := by
    intro w hwmem
    obtain ⟨hwbt, hwloss⟩ := List.mem_filter.mp hwmem
    have hl : w.result = ResultClass.loss := of_decide_eq_true hwloss
    rw [recoveryFor_eq]
    have hfilter : df.filter
        (fun r => decide (w.end_date < r.date) && decide (w.strike_level ≤ r.close)) = [] := by
      apply List.filter_eq_nil_iff.mpr
      intro r hr
      simp only [Bool.and_eq_true, decide_eq_true_eq, not_and]
      intro hdate
      exact not_le.mpr (hstuck w hwbt hl r hr hdate)
    rw [hfilter]
  have hrc : recoveryCounts df bt = [] := by
    unfold recoveryCounts
    exact List.filterMap_eq_nil_iff.mpr hnone
  constructor
  · rw [hs, mkStats_avg_recovery, hrc]
    rfl
  · rw [hs, mkStats_stuck_count, mkStats_loss_count]
    unfold stuckCount
    congr 1
    apply List.filter_eq_self.mpr
    intro w hw
    exact decide_eq_true (hnone w hw)

/-- Witness for the amended C2 at the `exStuck` series, whose single
LOSS window never recovers. -/
theorem C2_amended_all_stuck_average_is_zero_witness :
    (statsOf (run_detailed_backtest_days exStuck 65 100 2)).avg_recovery_days = 0 ∧
    (statsOf (run_detailed_backtest_days exStuck 65 100 2)).stuck_count =
      (statsOf (run_detailed_backtest_days exStuck 65 100 2)).loss_count :=
  C2_amended_all_stuck_average_is_zero exStuck 65 100 2
    (computeBt exStuck 65 100 2) (statsOf (run_detailed_backtest_days exStuck 65 100 2))
    (by decide) (by decide)

/-- C7 is false of the code: `run_detailed_backtest` performs no input
validation and has no raise path.  On a series containing the
non-positive closing price −5 it computes and returns an ordinary result,
and it does the same on a series whose dates are not monotonically
increasing. -/
theorem C7_counterexample_invalid_inputs_accepted :
    (exBad.getD 1 dummyRow).close ≤ 0 ∧
    (run_detailed_backtest_days exBad 65 100 1).isSome = true ∧
    (exBadDates.getD 1 dummyRow).date < (exBadDates.getD 0 dummyRow).date ∧
    (run_detailed_backtest_days exBadDates 65 100 1).isSome = true := by
  decide

/-- C7 (amended): the backtest performs no input validation at the call
boundary: for every series and thresholds whatsoever — non-monotonic
dates and non-positive prices included — and every positive holding
period short enough to leave at least one complete window, it computes
and returns a result rather than raising or returning an error. -/
theorem C7_amended_no_validation_always_computes (df : List Row) (ki strike : Rat)
    (td : Nat) (h1 : 1 ≤ td) (h2 : td < df.length) :
    (run_detailed_backtest_days df ki strike td).isSome = true := by
  have hlen : (computeBt df ki strike td).length = df.length - td :=
    computeBt_length df ki strike td h1
  have hne : ¬ (computeBt df ki strike td).isEmpty = true := by
    intro hc
    have := congrArg List.length (List.isEmpty_iff.mp hc)
    rw [hlen, List.length_nil] at this
    omega
  simp only [run_detailed_backtest_days]
  rw [if_neg hne]
  rfl

/-- Witness for the amended C7 at the series containing a non-positive
price. -/
theorem C7_amended_no_validation_always_computes_witness :
    (run_detailed_backtest_days exBad 65 100 1).isSome = true :=
  C7_amended_no_validation_always_computes exBad 65 100 1 (by decide) (by decide)

theorem safe_add_loss_eq_total (bt : List BtRow) :
    (bt.filter (fun r => !decide (r.result = ResultClass.loss))).length + (lossRows bt).length
      = bt.length := by
  unfold lossRows
  induction bt with
  | nil => rfl
  | cons w ws ih =>
    by_cases hw : w.result = ResultClass.loss
    · simp only [List.filter_cons, hw]
      simp
      omega
    · simp only [List.filter_cons]
      simp [hw]
      omega

/-- C8: whenever the backtest returns statistics (so `total_samples > 0`),
`safety_prob + loss_count/total_samples × 100` equals 100 exactly (the
embedding works in ℚ, so the floating-point tolerance is not needed):
every window is counted exactly once as safe or loss, and both reported
probabilities lie in [0, 100]. -/
theorem C8_safety_and_loss_probabilities_partition (df : List Row) (ki strike : Rat)
    (td : Nat) (bt : List BtRow) (s : Stats)
    (h : run_detailed_backtest_days df ki strike td = some (bt, s)) :
    0 < s.total_samples ∧
    s.safety_prob + ((s.loss_count : Rat) / (s.total_samples : Rat)) * 100 = 100 ∧
    0 ≤ s.safety_prob ∧ s.safety_prob ≤ 100 ∧
    0 ≤ s.positive_prob ∧ s.positive_prob ≤ 100 := by
  obtain ⟨hbt, hs, hne⟩ := run_days_eq_some h
  have hn : 0 < bt.length := List.length_pos.mpr hne
  have hnQ : (0 : Rat) < (bt.length : Rat) := by exact_mod_cast hn
  have hnne : ((bt.length : Rat)) ≠ 0 := ne_of_gt hnQ
  have hsumQ : ((bt.filter (fun r => !decide (r.result = ResultClass.loss))).length : Rat) +
      ((lossRows bt).length : Rat) = (bt.length : Rat) := by
    exact_mod_cast safe_add_loss_eq_total bt
  have hsafeleQ : ((bt.filter (fun r => !decide (r.result = ResultClass.loss))).length : Rat) ≤
      (bt.length : Rat) := by
    exact_mod_cast List.length_filter_le _ bt
  have hposleQ : ((bt.filter (fun r => r.start_price < r.final_price)).length : Rat) ≤
      (bt.length : Rat) := by
    exact_mod_cast List.length_filter_le _ bt
  rw [hs, mkStats_total_samples, mkStats_safety_prob, mkStats_loss_count,
    mkStats_positive_prob]
  refine ⟨hn, ?_, ?_, ?_, ?_, ?_⟩
  · field_simp
    linarith [hsumQ]
  · positivity
  · have h1 : ((bt.filter (fun r => !decide (r.result = ResultClass.loss))).length : Rat) /
        (bt.length : Rat) ≤ 1 := (div_le_one hnQ).mpr hsafeleQ
    linarith [h1]
  · positivity
  · have h1 : ((bt.filter (fun r => r.start_price < r.final_price)).length : Rat) /
        (bt.length : Rat) ≤ 1 := (div_le_one hnQ).mpr hposleQ
    linarith [h1]

/-- Witness for C8 at the `exRec` series: two windows, one safe and one
loss. -/
theorem C8_safety_and_loss_probabilities_partition_witness :
    0 < (statsOf (run_detailed_backtest_days exRec 65 100 2)).total_samples ∧
    (statsOf (run_detailed_backtest_days exRec 65 100 2)).safety_prob +
      (((statsOf (run_detailed_backtest_days exRec 65 100 2)).loss_count : Rat) /
        ((statsOf (run_detailed_backtest_days exRec 65 100 2)).total_samples : Rat)) * 100
      = 100 ∧
    0 ≤ (statsOf (run_detailed_backtest_days exRec 65 100 2)).safety_prob ∧
    (statsOf (run_detailed_backtest_days exRec 65 100 2)).safety_prob ≤ 100 ∧
    0 ≤ (statsOf (run_detailed_backtest_days exRec 65 100 2)).positive_prob ∧
    (statsOf (run_detailed_backtest_days exRec 65 100 2)).positive_prob ≤ 100 :=
  C8_safety_and_loss_probabilities_partition exRec 65 100 2
    (computeBt exRec 65 100 2) (statsOf (run_detailed_backtest_days exRec 65 100 2))
    (by decide)

theorem recoveryScanEvals_eq (df : List Row) (bt : List BtRow) :
    recoveryScanEvals df bt = (lossRows bt).length * df.length := by
  unfold recoveryScanEvals recoveryMask
  simp only [List.length_map]
  rw [List.map_const', List.sum_replicate, smul_eq_mul]

theorem constSeries_length (n : Nat) : (constSeries n).length = n := by
  unfold constSeries
  rw [List.length_map, List.length_range]

theorem constSeries_getD (n i : Nat) (h : i < n) :
    (constSeries n).getD i dummyRow = ⟨(i : Int), 1⟩ := by
  unfold constSeries
  rw [List.getD_eq_getElem?_getD, List.getElem?_map, List.getElem?_range h]
  rfl

theorem take_one_drop (l : List Row) (i : Nat) (h : i < l.length) :
    (l.drop i).take 1 = [l.getD i dummyRow] := by
  induction l generalizing i with
  | nil => simp at h
  | cons a as ih =>
    cases i with
    | zero => rfl
    | succ j =>
      simp only [List.drop_succ_cons, List.getD_cons_succ]
      exact ih j (by simpa using h)

theorem constSeries_row_loss (n i : Nat) (h : i + 1 < n) :
    (mkBtRow (constSeries n) 200 200 1 i).result = ResultClass.loss := by
  have hgi := constSeries_getD n i (by omega)
  have hgx := constSeries_getD n (i + 1) h
  have hmin : minPriceDuring (constSeries n) 1 i = 1 := by
    unfold minPriceDuring
    rw [take_one_drop (constSeries n) i (by rw [constSeries_length]; omega), hgi]
    rfl
  simp only [mkBtRow, hgi, hgx, hmin]
  decide

theorem constSeries_lossRows (n : Nat) :
    lossRows (computeBt (constSeries n) 200 200 1) = computeBt (constSeries n) 200 200 1 := by
  apply List.filter_eq_self.mpr
  intro w hw
  rcases mem_computeBt hw with ⟨i, hi, rfl⟩
  rw [constSeries_length] at hi
  exact decide_eq_true (constSeries_row_loss n i (by omega))

/-- C9 is false of the code: the recovery lookup does not use a single
shared forward cursor — it re-evaluates the filter mask over the entire
series for every loss window, so its total cost is
`loss_count × len(series)` row inspections, which no constant multiple of
`loss_count + len(series)` can bound: on the constant-price family
`constSeries n` with `ki = strike = 200` and a 1-day holding period,
every one of the `n − 1` windows is a STUCK loss, giving `(n−1)·n`
inspections against `c · ((n−1) + n)`. -/
theorem C9_counterexample_scan_cost_not_linear :
    ¬ ∃ c : Nat, ∀ n : Nat,
        recoveryScanEvals (constSeries n) (computeBt (constSeries n) 200 200 1) ≤
          c * ((lossRows (computeBt (constSeries n) 200 200 1)).length +
            (constSeries n).length) := by
  rintro ⟨c, hc⟩
  have hn := hc (2 * c + 2)
  have e1 : (computeBt (constSeries (2 * c + 2)) 200 200 1).length =
      (constSeries (2 * c + 2)).length - 1 :=
    computeBt_length _ 200 200 1 (by omega)
  rw [recoveryScanEvals_eq, constSeries_lossRows, e1] at hn
  simp only [constSeries_length] at hn
  have h1 : 2 * c + 2 - 1 = 2 * c + 1 := by omega
  rw [h1] at hn
  nlinarith [hn]

/-- C9 (amended): the recovery lookup rescans the whole series once per
LOSS window: its total number of row inspections is exactly
`loss_count × len(series)` (O(k·n)), not the O(k + n) of a shared
forward-advancing cursor. -/
theorem C9_amended_recovery_scan_is_quadratic (df : List Row) (ki strike : Rat) (td : Nat) :
    recoveryScanEvals df (computeBt df ki strike td) =
      (lossRows (computeBt df ki strike td)).length * df.length :=
  recoveryScanEvals_eq df (computeBt df ki strike td)

theorem sorted_getD_lt (df : List Row) (a b : Nat)
    (hsorted : df.Pairwise (fun x y => x.date < y.date))
    (hab : a < b) (hb : b < df.length) :
    (df.getD a dummyRow).date < (df.getD b dummyRow).date := by
  have ha : a < df.length := by omega
  rw [List.getD_eq_getElem?_getD, List.getElem?_eq_getElem ha,
    List.getD_eq_getElem?_getD, List.getElem?_eq_getElem hb]
  exact List.pairwise_iff_getElem.mp hsorted a b ha hb hab

/-- C10: the backtest is a pure function of its inputs — two invocations
on equal series with equal thresholds and holding period return equal
results (the embedding is a mathematical function, mirroring that the
code only reads `df` and writes the fresh copy `bt`) — and on a series
with strictly increasing dates the emitted window sequence is in strictly
ascending anchor-date order. -/
theorem C10_determinism_and_ascending_anchor_order (df df2 : List Row) (ki strike : Rat)
    (td : Nat) (hsorted : df.Pairwise (fun a b => a.date < b.date)) (heq : df2 = df) :
    run_detailed_backtest_days df2 ki strike td = run_detailed_backtest_days df ki strike td ∧
    (computeBt df ki strike td).Pairwise (fun a b => a.start_date < b.start_date) := by
  subst heq
  refine ⟨rfl, ?_⟩
  unfold computeBt
  split
  · exact List.Pairwise.nil
  · rw [List.pairwise_iff_getElem]
    intro a b ha hb hab
    rw [List.length_map, List.length_range] at ha hb
    rw [List.getElem_map, List.getElem_map, List.getElem_range, List.getElem_range]
    exact sorted_getD_lt _ a b hsorted hab (by omega)

/-- Witness for C10 at the `exRec` series. -/
theorem C10_determinism_and_ascending_anchor_order_witness :
    run_detailed_backtest_days exRec 65 100 2 = run_detailed_backtest_days exRec 65 100 2 ∧
    (computeBt exRec 65 100 2).Pairwise (fun a b => a.start_date < b.start_date) :=
  C10_determinism_and_ascending_anchor_order exRec exRec 65 100 2 (by decide) rfl

end Backtest
